import Mathlib

/-!
Shallow embedding of the temporary media-hosting service (src/app.py).

Modelling choices:
* A Python dict is an association list `Dict α := List (String × α)` whose
  operations mirror CPython semantics: assignment replaces the value in
  place when the key is present (preserving insertion order) and appends
  otherwise; `del` removes the key; iteration follows list order.
* The filesystem is a `Dict (List Nat)` from path to stored byte content;
  `os.path.exists` is key membership, `os.remove` deletes the key and may
  fail (an OSError) on paths listed in a `failing` parameter, and the
  aiofiles write stores the content under the path.
* Time is an abstract `Nat` (seconds).  `datetime.now()` is modelled by
  explicit timestamp parameters, one per call site, since the source calls
  it several times per request; `timedelta(hours=h)` is `h * 3600` and
  `timedelta(minutes=m)` is `m * 60`.  `isoformat()` is rendered as the
  numeric timestamp itself.
* `uuid.uuid4()` results are explicit string parameters.
* HTTP responses are association lists of JSON values; raising
  `HTTPException(status_code, detail)` is the `err` outcome, returned
  before any state mutation exactly where the source raises.
-/

/-- Association-list model of a Python dict keyed by strings. -/
abbrev Dict (α : Type) : Type := List (String × α)

/-- Keys of a dict, in iteration order. -/
def dictKeys {α : Type} (d : Dict α) : List String :=
  d.map Prod.fst

/-- Python `k in d`. -/
def dictContains {α : Type} (d : Dict α) (k : String) : Bool :=
  d.any (fun p => decide (p.1 = k))

/-- Python `d.get(k)` / `d[k]` lookup: first (unique) entry with the key. -/
def dictGet {α : Type} (d : Dict α) (k : String) : Option α :=
  (d.find? (fun p => decide (p.1 = k))).map (fun p => p.2)

/-- Python `d[k] = v`: replace in place when present, else append. -/
def dictSet {α : Type} (d : Dict α) (k : String) (v : α) : Dict α :=
  if dictContains d k then d.map (fun p => if p.1 = k then (k, v) else p)
  else d ++ [(k, v)]

/-- Python `del d[k]`. -/
def dictDel {α : Type} (d : Dict α) (k : String) : Dict α :=
  d.filter (fun p => decide (p.1 ≠ k))

/-- Split a character list on a separator character (like `str.split`). -/
def splitOnChar (c : Char) : List Char → List (List Char)
  | [] => [[]]
  | x :: xs =>
    match splitOnChar c xs with
    | [] => [[]]
    | h :: t => if x = c then [] :: h :: t else (x :: h) :: t

/-- Components of a POSIX path as pathlib parses it: split on the slash,
dropping empty components and single-dot components. -/
def pathComponents (l : List Char) : List (List Char) :=
  (splitOnChar '/' l).filter (fun comp => decide (comp ≠ [] ∧ comp ≠ ['.']))

/-- `PurePosixPath(filename).name`: the final path component. -/
def pathNameOf (l : List Char) : List Char :=
  ((pathComponents l).getLast?).getD []

/-- Walk the reversed name; the first dot found from the end is the last
dot of the name.  CPython `PurePath.suffix` returns `name[i:]` for
`i = name.rfind(chr(46))` only when `0 < i < len(name) - 1`, else the
empty string: a dot that is the first or the last character yields no
suffix. -/
def suffixAux : List Char → List Char → List Char
  | [], _ => []
  | c :: rest, acc =>
    if c = '.' then (if acc = [] ∨ rest = [] then [] else '.' :: acc)
    else suffixAux rest (c :: acc)

/-- `PurePosixPath-style suffix` of a final path component. -/
def pathSuffixOf (name : List Char) : List Char :=
  suffixAux name.reverse []

/-- Character-wise lowercasing (`str.lower` on ASCII extensions). -/
def lowerChars (l : List Char) : List Char :=
  l.map Char.toLower

/-- `get_file_extension` on character lists:
`Path(filename).suffix.lower()`. -/
def getFileExtensionL (l : List Char) : List Char :=
  lowerChars (pathSuffixOf (pathNameOf l))

/-- src/app.py `get_file_extension(filename)`. -/
def get_file_extension (filename : String) : String :=
  String.mk (getFileExtensionL filename.data)

/-- The audio extension allow-list of `is_audio_file`. -/
def audio_extensions : List String :=
  [".mp3", ".wav", ".flac", ".aac", ".ogg", ".m4a", ".wma"]

/-- The image extension allow-list of `is_image_file`. -/
def image_extensions : List String :=
  [".jpg", ".jpeg", ".png", ".gif", ".bmp", ".webp", ".svg", ".tiff", ".ico"]

/-- src/app.py `is_audio_file(filename)`. -/
def is_audio_file (filename : String) : Bool :=
  decide (get_file_extension filename ∈ audio_extensions)

/-- src/app.py `is_image_file(filename)`. -/
def is_image_file (filename : String) : Bool :=
  decide (get_file_extension filename ∈ image_extensions)

/-- The request metadata `get_base_url` consumes.  Header names are stored
lowercased, as Starlette normalises them. -/
structure Request where
  urlScheme : String
  urlNetloc : String
  headers : Dict String
deriving DecidableEq

/-- src/app.py `get_base_url(request)`: scheme from the URL, host from the
Host header falling back to the URL netloc, each overridden by the
corresponding X-Forwarded header when present. -/
def get_base_url (req : Request) : String :=
  let scheme := req.urlScheme
  let host := (dictGet req.headers "host").getD req.urlNetloc
  let scheme :=
    match dictGet req.headers "x-forwarded-proto" with
    | some v => v
    | none => scheme
  let host :=
    match dictGet req.headers "x-forwarded-host" with
    | some v => v
    | none => host
  scheme ++ "://" ++ host

/-- Configuration constants of src/app.py. -/
def STORAGE_DIR : String := "audio_storage"

/-- Image storage directory constant. -/
def IMAGE_STORAGE_DIR : String := "image_storage"

/-- Audio retention, in hours. -/
def EXPIRY_HOURS : Nat := 12

/-- Image retention, in minutes. -/
def IMAGE_EXPIRY_MINUTES : Nat := 20

/-- One `file_registry` entry.  The audio handler stores the keys
original_filename, file_path, unique_filename, created_at, expires_at;
the image handler stores original_filename, file_path, created_at,
expires_at, file_size.  The keys present in only one category are
`Option`-valued.  No handler ever stores a file_type key; the cleanup
loop reads it only with a default, for logging, which is not modelled. -/
structure FileInfo where
  originalFilename : String
  filePath : String
  uniqueFilename : Option String
  createdAt : Nat
  expiresAt : Nat
  fileSize : Option Nat
deriving DecidableEq

/-- The in-memory registry `file_registry`. -/
abbrev Registry : Type := Dict FileInfo

/-- The filesystem: stored byte content per path. -/
abbrev FS : Type := Dict (List Nat)

/-- JSON leaf values appearing in the response payloads. -/
inductive JVal where
  | b (v : Bool)
  | s (v : String)
  | n (v : Nat)
deriving DecidableEq

/-- Outcome of a handler: a 200 JSON payload, or a raised
HTTPException with status code and detail. -/
inductive UploadOutcome where
  | ok (payload : Dict JVal)
  | err (statusCode : Nat) (detail : String)
deriving DecidableEq

/-- Keys of a success payload; empty for an error outcome. -/
def outcomeKeys : UploadOutcome → List String
  | .ok payload => dictKeys payload
  | .err _ _ => []

/-- src/app.py `upload_audio`.  Explicit parameters: the uuid4 drawn for
the stored filename (`uuidName`), the uuid4 drawn for the secure token
(`uuidToken`), and the two `datetime.now()` samples, `tExpiry` at the
`expires_at` computation and `tCreated` at the `created_at` field. -/
def upload_audio (req : Request) (filename : String) (content : List Nat)
    (uuidName uuidToken : String) (tExpiry tCreated : Nat)
    (reg : Registry) (fs : FS) : Registry × FS × UploadOutcome :=
  if is_audio_file filename then
    let fileExtension := get_file_extension filename
    let uniqueFilename := uuidName ++ fileExtension
    let filePath := STORAGE_DIR ++ "/" ++ uniqueFilename
    let fs2 := dictSet fs filePath content
    let expiresAt := tExpiry + EXPIRY_HOURS * 3600
    let reg2 := dictSet reg uuidToken
      { originalFilename := filename
        filePath := filePath
        uniqueFilename := some uniqueFilename
        createdAt := tCreated
        expiresAt := expiresAt
        fileSize := none }
    let baseUrl := get_base_url req
    let secureLink := baseUrl ++ "/static/audio/" ++ uniqueFilename
    (reg2, fs2, .ok
      [("success", .b true),
       ("message", .s "Audio file uploaded successfully"),
       ("secure_link", .s secureLink),
       ("base_url_detected", .s baseUrl),
       ("expires_at", .n expiresAt),
       ("file_size", .n content.length),
       ("expires_in_hours", .n EXPIRY_HOURS)])
  else
    (reg, fs, .err 400
      "Only audio files are allowed (mp3, wav, flac, aac, ogg, m4a, wma)")

/-- src/app.py `upload_image`, same parameter conventions as
`upload_audio`.  Its registry entry has no unique_filename key but does
record file_size, and its success payload has expires_in_minutes and no
file_size key. -/
def upload_image (req : Request) (filename : String) (content : List Nat)
    (uuidName uuidToken : String) (tExpiry tCreated : Nat)
    (reg : Registry) (fs : FS) : Registry × FS × UploadOutcome :=
  if is_image_file filename then
    let fileExtension := get_file_extension filename
    let uniqueFilename := uuidName ++ fileExtension
    let filePath := IMAGE_STORAGE_DIR ++ "/" ++ uniqueFilename
    let fs2 := dictSet fs filePath content
    let expiresAt := tExpiry + IMAGE_EXPIRY_MINUTES * 60
    let reg2 := dictSet reg uuidToken
      { originalFilename := filename
        filePath := filePath
        uniqueFilename := none
        createdAt := tCreated
        expiresAt := expiresAt
        fileSize := some content.length }
    let baseUrl := get_base_url req
    let secureLink := baseUrl ++ "/images/" ++ uniqueFilename
    (reg2, fs2, .ok
      [("success", .b true),
       ("message", .s "Image file uploaded successfully"),
       ("secure_link", .s secureLink),
       ("base_url_detected", .s baseUrl),
       ("expires_at", .n expiresAt),
       ("expires_in_minutes", .n IMAGE_EXPIRY_MINUTES)])
  else
    (reg, fs, .err 400
      "Only image files are allowed (jpg, jpeg, png, gif, bmp, webp, svg, tiff, ico)")

/-- Observable side effects of one cleanup cycle, in temporal order:
a physical file deletion, or a registry entry removal. -/
inductive CleanupEvent where
  | deleteFile (path : String)
  | removeEntry (token : String)
deriving DecidableEq

/-- `os.remove(p)`: deletes the path, or raises OSError for paths in
`failing` (permissions, races — anything the OS can refuse). -/
def osRemove (failing : List String) (fs : FS) (p : String) :
    Except String FS :=
  if failing.contains p then .error p else .ok (dictDel fs p)

/-- The scan of one `cleanup_expired_files` cycle: the `for` loop over
`file_registry.items()` that deletes the physical file of each entry with
`current_time > expires_at` (when the path exists) and accumulates the
expired tokens.  An OSError from `os.remove` propagates: there is no
try/except in the source loop. -/
def scanExpired (now : Nat) (failing : List String) :
    List (String × FileInfo) → FS → List String → List CleanupEvent →
    Except String (FS × List String × List CleanupEvent)
  | [], fs, expired, evs => .ok (fs, expired, evs)
  | (token, info) :: rest, fs, expired, evs =>
    if now > info.expiresAt then
      if dictContains fs info.filePath then
        match osRemove failing fs info.filePath with
        | .error e => .error e
        | .ok fs2 =>
          scanExpired now failing rest fs2 (expired ++ [token])
            (evs ++ [.deleteFile info.filePath])
      else scanExpired now failing rest fs (expired ++ [token]) evs
    else scanExpired now failing rest fs expired evs

/-- One full cycle of `cleanup_expired_files` (the body of the `while
True` loop, without the sleep): scan and delete files, then `del` each
expired token from the registry.  On an OSError the exception escapes
the whole coroutine, so no registry removal happens at all. -/
def cleanupCycle (now : Nat) (failing : List String) (reg : Registry)
    (fs : FS) : Except String (Registry × FS × List CleanupEvent) :=
  match scanExpired now failing reg fs [] [] with
  | .error e => .error e
  | .ok (fs2, expired, evs) =>
    .ok (expired.foldl (fun r t => dictDel r t) reg, fs2,
      evs ++ expired.map CleanupEvent.removeEntry)

/-- Registry entries past expiry at `now` (the condition of the scan). -/
def isExpired (now : Nat) (p : String × FileInfo) : Bool :=
  decide (now > p.2.expiresAt)

/-- Tokens of the expired entries, in registry order. -/
def expiredTokens (now : Nat) (items : List (String × FileInfo)) :
    List String :=
  (items.filter (isExpired now)).map (fun p => p.1)

/-- File paths of the expired entries, in registry order. -/
def expiredPaths (now : Nat) (items : List (String × FileInfo)) :
    List String :=
  (items.filter (isExpired now)).map (fun p => p.2.filePath)

/-- Whether a handler outcome is a 200 success. -/
def isOkOutcome : UploadOutcome → Bool
  | .ok _ => true
  | .err _ _ => false

/-- The scheme the claim describes: the request scheme, replaced by the
X-Forwarded-Proto header when that header is present. -/
def baseUrlSchemeSpec (req : Request) : String :=
  (dictGet req.headers "x-forwarded-proto").getD req.urlScheme

/-- The host the claim describes: the request host (Host header, else
URL netloc), replaced by the X-Forwarded-Host header when present. -/
def baseUrlHostSpec (req : Request) : String :=
  (dictGet req.headers "x-forwarded-host").getD
    ((dictGet req.headers "host").getD req.urlNetloc)

/-- A request fixture: direct client, no proxy headers. -/
def sampleReq : Request :=
  { urlScheme := "http", urlNetloc := "localhost:8072", headers := [] }

/-- An expired audio record whose blob exists on disk. -/
def expInfo1 : FileInfo :=
  { originalFilename := "a.mp3", filePath := "audio_storage/a1.mp3",
    uniqueFilename := some "a1.mp3", createdAt := 0, expiresAt := 5,
    fileSize := none }

/-- An expired audio record whose blob is already missing (the state a
crash between blob-delete and registry-remove would leave). -/
def expInfo2 : FileInfo :=
  { originalFilename := "b.mp3", filePath := "audio_storage/b1.mp3",
    uniqueFilename := some "b1.mp3", createdAt := 0, expiresAt := 7,
    fileSize := none }

/-- A still-live image record. -/
def liveInfo : FileInfo :=
  { originalFilename := "c.png", filePath := "image_storage/c1.png",
    uniqueFilename := none, createdAt := 0, expiresAt := 50,
    fileSize := some 2 }

/-- A registry fixture: two expired entries and one live entry. -/
def sampleReg : Registry :=
  [("t1", expInfo1), ("t2", expInfo2), ("t3", liveInfo)]

/-- A filesystem fixture: blobs of t1 and t3; the blob of t2 is gone. -/
def sampleFs : FS :=
  [("audio_storage/a1.mp3", [1]), ("image_storage/c1.png", [2, 3])]

/-- A pre-existing registry record used to exhibit token collisions. -/
def oldInfo : FileInfo :=
  { originalFilename := "old.mp3", filePath := "audio_storage/old.mp3",
    uniqueFilename := some "old.mp3", createdAt := 0, expiresAt := 100,
    fileSize := none }

theorem dictContains_false_iff {α : Type} (d : Dict α) (k : String) :
    dictContains d k = false ↔ k ∉ dictKeys d := by
  simp [dictContains, dictKeys, List.any_eq_false, List.mem_map]
  constructor
  · intro h x hx
    exact h k x hx rfl
  · intro h a b hab hak
    exact h b (hak ▸ hab)

theorem dictContains_true_iff {α : Type} (d : Dict α) (k : String) :
    dictContains d k = true ↔ k ∈ dictKeys d := by
  rw [← Bool.not_eq_false, not_iff_comm.symm]
  simp [dictContains_false_iff]

theorem dictGet_eq_none {α : Type} (d : Dict α) (k : String)
    (h : k ∉ dictKeys d) : dictGet d k = none := by
  unfold dictGet
  rw [List.find?_eq_none.mpr]
  · rfl
  · intro p hp
    simp only [decide_eq_true_eq]
    intro hk
    exact h (hk ▸ List.mem_map_of_mem Prod.fst hp)

theorem dictGet_of_mem {α : Type} {d : Dict α} {k : String} {v : α}
    (hnd : (dictKeys d).Nodup) (hm : (k, v) ∈ d) : dictGet d k = some v := by
  induction d with
  | nil => cases hm
  | cons p t ih =>
    rcases List.mem_cons.mp hm with rfl | htl
    · simp [dictGet, List.find?_cons]
    · have hk : p.1 ≠ k := by
        intro hk
        have : k ∈ dictKeys t := List.mem_map_of_mem Prod.fst htl
        rw [dictKeys, List.map_cons, List.nodup_cons] at hnd
        exact hnd.1 (hk ▸ this)
      have hnd' : (dictKeys t).Nodup := by
        rw [dictKeys, List.map_cons, List.nodup_cons] at hnd
        exact hnd.2
      simpa [dictGet, List.find?_cons, hk] using ih hnd' htl

theorem dict_val_eq_of_nodup {α : Type} {d : Dict α} {k : String} {a b : α}
    (hnd : (dictKeys d).Nodup) (h1 : (k, a) ∈ d) (h2 : (k, b) ∈ d) :
    a = b := by
  have ha := dictGet_of_mem hnd h1
  have hb := dictGet_of_mem hnd h2
  rw [ha] at hb
  exact (Option.some.injEq _ _).mp hb

theorem dictGet_set_self {α : Type} (d : Dict α) (k : String) (v : α) :
    dictGet (dictSet d k v) k = some v := by
  unfold dictSet
  by_cases h : dictContains d k = true
  · rw [if_pos h]
    rw [dictContains_true_iff] at h
    induction d with
    | nil => cases h
    | cons p t ih =>
      by_cases hk : p.1 = k
      · simp [dictGet, List.find?_cons, hk]
      · have : k ∈ dictKeys t := by
          rcases (by simpa [dictKeys] using h : k = p.1 ∨ k ∈ dictKeys t) with h' | h'
          · exact absurd h'.symm hk
          · exact h'
        simpa [dictGet, List.find?_cons, hk] using ih this
  · rw [if_neg h]
    rw [Bool.not_eq_true, dictContains_false_iff] at h
    induction d with
    | nil => simp [dictGet, List.find?_cons]
    | cons p t ih =>
      have hk : p.1 ≠ k := by
        intro hk
        exact h (by simp [dictKeys, hk])
      have : k ∉ dictKeys t := by
        intro hm
        exact h (by simp [dictKeys] at hm ⊢; exact Or.inr hm)
      simpa [dictGet, List.find?_cons, hk] using ih this

theorem dictKeys_set_of_contains {α : Type} (d : Dict α) (k : String) (v : α)
    (h : dictContains d k = true) : dictKeys (dictSet d k v) = dictKeys d := by
  unfold dictSet
  rw [if_pos h, dictKeys, dictKeys, List.map_map]
  apply List.map_congr_left
  intro p _
  by_cases hk : p.1 = k
  · simp [hk]
  · simp [hk]

theorem filter_del_notMem {α : Type} (d : Dict α) (p : String)
    (ps : List String) :
    (d.filter (fun q => decide (q.1 ≠ p))).filter
        (fun q => decide (¬ q.1 ∈ ps)) =
      d.filter (fun q => decide (¬ q.1 ∈ p :: ps)) := by
  rw [List.filter_filter]
  apply List.filter_congr
  intro q _
  by_cases h1 : q.1 = p <;> by_cases h2 : q.1 ∈ ps <;>
    simp [h1, h2, List.mem_cons]

theorem filter_notMem_cons_of_absent {α : Type} (d : Dict α) (p : String)
    (ps : List String) (h : p ∉ dictKeys d) :
    d.filter (fun q => decide (¬ q.1 ∈ p :: ps)) =
      d.filter (fun q => decide (¬ q.1 ∈ ps)) := by
  apply List.filter_congr
  intro q hq
  have : q.1 ≠ p := by
    intro he
    exact h (he ▸ List.mem_map_of_mem Prod.fst hq)
  simp [List.mem_cons, this]

theorem filter_notMem_nil {α : Type} (d : Dict α) :
    d.filter (fun q => decide (¬ q.1 ∈ ([] : List String))) = d := by
  apply List.filter_eq_self.mpr
  intro a _
  simp

theorem dictDel_filter_notMem {α : Type} (d : Dict α) (p : String)
    (ps : List String) :
    (dictDel d p).filter (fun q => decide (¬ q.1 ∈ ps)) =
      d.filter (fun q => decide (¬ q.1 ∈ p :: ps)) :=
  filter_del_notMem d p ps

theorem foldl_dictDel {α : Type} (toks : List String) :
    ∀ d : Dict α,
      toks.foldl (fun r t => dictDel r t) d =
        d.filter (fun q => decide (¬ q.1 ∈ toks)) := by
  induction toks with
  | nil =>
    intro d
    rw [List.foldl_nil]
    exact (filter_notMem_nil d).symm
  | cons t ts ih =>
    intro d
    rw [List.foldl_cons, ih (dictDel d t)]
    exact filter_del_notMem d t ts

theorem expiredTokens_cons_pos {now : Nat} {info : FileInfo} (t : String)
    (tl : List (String × FileInfo)) (h : now > info.expiresAt) :
    expiredTokens now ((t, info) :: tl) = t :: expiredTokens now tl := by
  simp [expiredTokens, List.filter_cons, isExpired, h]

theorem expiredTokens_cons_neg {now : Nat} {info : FileInfo} (t : String)
    (tl : List (String × FileInfo)) (h : ¬ now > info.expiresAt) :
    expiredTokens now ((t, info) :: tl) = expiredTokens now tl := by
  simp [expiredTokens, List.filter_cons, isExpired, h]

theorem expiredPaths_cons_pos {now : Nat} {info : FileInfo} (t : String)
    (tl : List (String × FileInfo)) (h : now > info.expiresAt) :
    expiredPaths now ((t, info) :: tl) =
      info.filePath :: expiredPaths now tl := by
  simp [expiredPaths, List.filter_cons, isExpired, h]

theorem expiredPaths_cons_neg {now : Nat} {info : FileInfo} (t : String)
    (tl : List (String × FileInfo)) (h : ¬ now > info.expiresAt) :
    expiredPaths now ((t, info) :: tl) = expiredPaths now tl := by
  simp [expiredPaths, List.filter_cons, isExpired, h]

theorem scanExpired_noFail (now : Nat) :
    ∀ (items : List (String × FileInfo)) (fs : FS) (expired : List String)
      (evs : List CleanupEvent),
      ∃ ds,
        scanExpired now [] items fs expired evs =
          .ok (fs.filter (fun q => decide (¬ q.1 ∈ expiredPaths now items)),
               expired ++ expiredTokens now items, evs ++ ds) ∧
        ∀ e ∈ ds, ∃ p, e = CleanupEvent.deleteFile p := by
  intro items
  induction items with
  | nil =>
    intro fs expired evs
    refine ⟨[], ?_, by simp⟩
    simp [scanExpired, expiredTokens, expiredPaths, filter_notMem_nil]
  | cons hd tl ih =>
    obtain ⟨token, info⟩ := hd
    intro fs expired evs
    by_cases hexp : now > info.expiresAt
    · by_cases hex : dictContains fs info.filePath = true
      · obtain ⟨ds, heq, hds⟩ :=
          ih (dictDel fs info.filePath) (expired ++ [token])
            (evs ++ [.deleteFile info.filePath])
        refine ⟨.deleteFile info.filePath :: ds, ?_, ?_⟩
        · rw [scanExpired, if_pos hexp, if_pos hex]
          show scanExpired now [] tl (dictDel fs info.filePath)
              (expired ++ [token]) (evs ++ [.deleteFile info.filePath]) = _
          rw [heq, dictDel_filter_notMem fs info.filePath,
            expiredPaths_cons_pos token tl hexp,
            expiredTokens_cons_pos token tl hexp,
            List.append_assoc expired, List.singleton_append,
            List.append_assoc evs, List.singleton_append]
        · intro e he
          rcases List.mem_cons.mp he with rfl | h
          · exact ⟨info.filePath, rfl⟩
          · exact hds e h
      · obtain ⟨ds, heq, hds⟩ := ih fs (expired ++ [token]) evs
        refine ⟨ds, ?_, hds⟩
        rw [scanExpired, if_pos hexp, if_neg hex, heq,
          expiredPaths_cons_pos token tl hexp,
          expiredTokens_cons_pos token tl hexp,
          filter_notMem_cons_of_absent fs info.filePath (expiredPaths now tl)
            ((dictContains_false_iff fs info.filePath).mp
              (Bool.not_eq_true _ ▸ hex)),
          List.append_assoc expired, List.singleton_append]
    · obtain ⟨ds, heq, hds⟩ := ih fs expired evs
      refine ⟨ds, ?_, hds⟩
      rw [scanExpired, if_neg hexp, heq,
        expiredPaths_cons_neg token tl hexp,
        expiredTokens_cons_neg token tl hexp]

theorem dictContains_dictDel_ne {α : Type} {fs : Dict α} {p k : String}
    (h : k ≠ p) : dictContains (dictDel fs p) k = dictContains fs k := by
  by_cases hc : dictContains fs k = true
  · rw [hc]
    rw [dictContains_true_iff] at hc ⊢
    obtain ⟨q, hq, hq1⟩ := List.mem_map.mp hc
    exact List.mem_map.mpr
      ⟨q, List.mem_filter.mpr ⟨hq, by simp [hq1]; exact h⟩, hq1⟩
  · rw [Bool.not_eq_true] at hc
    rw [hc]
    rw [dictContains_false_iff] at hc ⊢
    intro hk
    obtain ⟨q, hq, hq1⟩ := List.mem_map.mp hk
    exact hc (List.mem_map.mpr ⟨q, (List.mem_filter.mp hq).1, hq1⟩)

theorem scan_deleteFile_mem (now : Nat) :
    ∀ (items : List (String × FileInfo)) (fs : FS) (expired : List String)
      (evs : List CleanupEvent) (t : String) (info : FileInfo)
      (out : FS × List String × List CleanupEvent),
      ((items.map (fun p => p.2.filePath)).Nodup) →
      (t, info) ∈ items → now > info.expiresAt →
      dictContains fs info.filePath = true →
      scanExpired now [] items fs expired evs = .ok out →
      CleanupEvent.deleteFile info.filePath ∈ out.2.2 := by
  intro items
  induction items with
  | nil =>
    intro fs expired evs t info out _ hmem
    cases hmem
  | cons hd tl ih =>
    obtain ⟨t0, i0⟩ := hd
    intro fs expired evs t info out hnd hmem hexp hex heq
    simp only [List.map_cons, List.nodup_cons] at hnd
    rcases List.mem_cons.mp hmem with hh | htl
    · injection hh with h1 h2
      subst h1
      subst h2
      rw [scanExpired, if_pos hexp, if_pos hex] at heq
      have heq2 : scanExpired now [] tl (dictDel fs info.filePath)
          (expired ++ [t]) (evs ++ [.deleteFile info.filePath]) = .ok out := heq
      obtain ⟨ds, heq3, _⟩ := scanExpired_noFail now tl
        (dictDel fs info.filePath) (expired ++ [t])
        (evs ++ [.deleteFile info.filePath])
      rw [heq3] at heq2
      cases heq2
      simp
    · by_cases hexp0 : now > i0.expiresAt
      · by_cases hex0 : dictContains fs i0.filePath = true
        · rw [scanExpired, if_pos hexp0, if_pos hex0] at heq
          have heq2 : scanExpired now [] tl (dictDel fs i0.filePath)
              (expired ++ [t0]) (evs ++ [.deleteFile i0.filePath]) =
                .ok out := heq
          have hne : info.filePath ≠ i0.filePath := by
            intro he
            exact hnd.1 (he ▸ List.mem_map_of_mem (fun p => p.2.filePath) htl)
          exact ih (dictDel fs i0.filePath) _ _ t info out hnd.2 htl hexp
            (by rwa [dictContains_dictDel_ne hne]) heq2
        · rw [scanExpired, if_pos hexp0, if_neg hex0] at heq
          exact ih fs _ _ t info out hnd.2 htl hexp hex heq
      · rw [scanExpired, if_neg hexp0] at heq
        exact ih fs _ _ t info out hnd.2 htl hexp hex heq

theorem cleanup_registry_filter (now : Nat) (reg : Registry)
    (hkeys : (dictKeys reg).Nodup) :
    (expiredTokens now reg).foldl (fun r t => dictDel r t) reg =
      reg.filter (fun p => !(isExpired now p)) := by
  rw [foldl_dictDel]
  apply List.filter_congr
  intro p hp
  by_cases hexp : isExpired now p = true
  · have hmem : p.1 ∈ expiredTokens now reg :=
      List.mem_map_of_mem (fun q => q.1) (List.mem_filter.mpr ⟨hp, hexp⟩)
    simp [hmem, hexp]
  · have hmem : p.1 ∉ expiredTokens now reg := by
      intro hm
      obtain ⟨q, hq, hq1⟩ := List.mem_map.mp hm
      have hqreg := (List.mem_filter.mp hq).1
      have hqexp := (List.mem_filter.mp hq).2
      have hq' : (p.1, q.2) ∈ reg := by
        rw [← hq1]
        simpa using hqreg
      have hp' : (p.1, p.2) ∈ reg := by simpa using hp
      have hval : q.2 = p.2 := dict_val_eq_of_nodup hkeys hq' hp'
      rw [isExpired, hval] at hqexp
      exact hexp hqexp
    simp [hmem, hexp]

theorem upload_audio_rejected (req : Request) (filename : String)
    (content : List Nat) (uuidName uuidToken : String)
    (tExpiry tCreated : Nat) (reg : Registry) (fs : FS)
    (h : is_audio_file filename = false) :
    upload_audio req filename content uuidName uuidToken tExpiry tCreated
        reg fs =
      (reg, fs, .err 400
        "Only audio files are allowed (mp3, wav, flac, aac, ogg, m4a, wma)") := by
  unfold upload_audio
  rw [h]
  rfl

theorem upload_image_rejected (req : Request) (filename : String)
    (content : List Nat) (uuidName uuidToken : String)
    (tExpiry tCreated : Nat) (reg : Registry) (fs : FS)
    (h : is_image_file filename = false) :
    upload_image req filename content uuidName uuidToken tExpiry tCreated
        reg fs =
      (reg, fs, .err 400
        "Only image files are allowed (jpg, jpeg, png, gif, bmp, webp, svg, tiff, ico)") := by
  unfold upload_image
  rw [h]
  rfl

/-- C8: for every inbound request the base URL is built from the request
scheme and host, except that a present X-Forwarded-Proto header replaces
the scheme and a present X-Forwarded-Host header replaces the host. -/
theorem claim_C8 (req : Request) :
    get_base_url req = baseUrlSchemeSpec req ++ "://" ++ baseUrlHostSpec req := by
  unfold get_base_url baseUrlSchemeSpec baseUrlHostSpec
  cases dictGet req.headers "x-forwarded-proto" <;>
    cases dictGet req.headers "x-forwarded-host" <;> rfl

/-- C10: a filename whose derived extension is the empty string (no
dot-separated suffix: extensionless names like clip, or a pure
leading-dot segment like .mp3) is rejected by both upload endpoints with
a 400 error, returning the registry and filesystem unchanged. -/
theorem claim_C10 (req : Request) (filename : String) (content : List Nat)
    (uuidName uuidToken : String) (tExpiry tCreated : Nat)
    (reg : Registry) (fs : FS)
    (h : get_file_extension filename = "") :
    upload_audio req filename content uuidName uuidToken tExpiry tCreated
        reg fs =
      (reg, fs, .err 400
        "Only audio files are allowed (mp3, wav, flac, aac, ogg, m4a, wma)") ∧
    upload_image req filename content uuidName uuidToken tExpiry tCreated
        reg fs =
      (reg, fs, .err 400
        "Only image files are allowed (jpg, jpeg, png, gif, bmp, webp, svg, tiff, ico)") := by
  have ha : is_audio_file filename = false := by
    rw [is_audio_file, h]
    decide
  have hi : is_image_file filename = false := by
    rw [is_image_file, h]
    decide
  exact ⟨upload_audio_rejected _ _ _ _ _ _ _ _ _ ha,
    upload_image_rejected _ _ _ _ _ _ _ _ _ hi⟩

/-- Witness for C10: the filenames clip and .mp3 both derive the empty
extension and both endpoints reject them without touching state. -/
theorem claim_C10_witness :
    get_file_extension "clip" = "" ∧ get_file_extension ".mp3" = "" ∧
    (upload_audio sampleReq "clip" [1] "u" "tok" 0 0 [] [] =
        ([], [], .err 400
          "Only audio files are allowed (mp3, wav, flac, aac, ogg, m4a, wma)") ∧
      upload_image sampleReq "clip" [1] "u" "tok" 0 0 [] [] =
        ([], [], .err 400
          "Only image files are allowed (jpg, jpeg, png, gif, bmp, webp, svg, tiff, ico)")) ∧
    (upload_audio sampleReq ".mp3" [1] "u" "tok" 0 0 [] [] =
        ([], [], .err 400
          "Only audio files are allowed (mp3, wav, flac, aac, ogg, m4a, wma)") ∧
      upload_image sampleReq ".mp3" [1] "u" "tok" 0 0 [] [] =
        ([], [], .err 400
          "Only image files are allowed (jpg, jpeg, png, gif, bmp, webp, svg, tiff, ico)")) :=
  ⟨by decide, by decide,
    claim_C10 sampleReq "clip" [1] "u" "tok" 0 0 [] [] (by decide),
    claim_C10 sampleReq ".mp3" [1] "u" "tok" 0 0 [] [] (by decide)⟩

theorem cleanupCycle_noFail (now : Nat) (reg : Registry) (fs : FS)
    (hkeys : (dictKeys reg).Nodup) :
    ∃ ds,
      cleanupCycle now [] reg fs =
        .ok (reg.filter (fun p => !(isExpired now p)),
             fs.filter (fun q => decide (¬ q.1 ∈ expiredPaths now reg)),
             ds ++ (expiredTokens now reg).map CleanupEvent.removeEntry) ∧
      (∀ e ∈ ds, ∃ p, e = CleanupEvent.deleteFile p) ∧
      scanExpired now [] reg fs [] [] =
        .ok (fs.filter (fun q => decide (¬ q.1 ∈ expiredPaths now reg)),
             [] ++ expiredTokens now reg, [] ++ ds) := by
  obtain ⟨ds, heq, hds⟩ := scanExpired_noFail now reg fs [] []
  refine ⟨ds, ?_, hds, heq⟩
  rw [cleanupCycle, heq]
  dsimp only
  rw [List.nil_append, List.nil_append, cleanup_registry_filter now reg hkeys]

theorem dictGet_live_filter_eq_none (now : Nat) (reg : Registry)
    (hkeys : (dictKeys reg).Nodup) {t : String} {info : FileInfo}
    (hmem : (t, info) ∈ reg) (hexp : now > info.expiresAt) :
    dictGet (reg.filter (fun p => !(isExpired now p))) t = none := by
  apply dictGet_eq_none
  intro hk
  rw [dictKeys] at hk
  obtain ⟨q, hq, hq1⟩ := List.mem_map.mp hk
  have hqf := List.mem_filter.mp hq
  have hlive : isExpired now q = false := by
    have := hqf.2
    simp at this
    exact this
  have hq' : (t, q.2) ∈ reg := by
    rw [← hq1]
    simpa using hqf.1
  have hval : q.2 = info := dict_val_eq_of_nodup hkeys hq' hmem
  rw [isExpired, hval] at hlive
  simp at hlive
  omega

theorem dictContains_reaped_filter_false (now : Nat) (reg : Registry)
    (fs : FS) {t : String} {info : FileInfo}
    (hmem : (t, info) ∈ reg) (hexp : now > info.expiresAt) :
    dictContains
        (fs.filter (fun q => decide (¬ q.1 ∈ expiredPaths now reg)))
        info.filePath = false := by
  rw [dictContains_false_iff]
  intro hk
  rw [dictKeys] at hk
  obtain ⟨q, hq, hq1⟩ := List.mem_map.mp hk
  have hqf := List.mem_filter.mp hq
  have hnot : ¬ q.1 ∈ expiredPaths now reg := of_decide_eq_true hqf.2
  apply hnot
  rw [hq1, expiredPaths]
  have hexpmem : (t, info) ∈ reg.filter (isExpired now) := by
    apply List.mem_filter.mpr
    refine ⟨hmem, ?_⟩
    simp [isExpired, hexp]
  exact List.mem_map_of_mem (fun p => p.2.filePath) hexpmem

/-- C1: one cleanup cycle at time now removes exactly the registry
entries whose expiresAt is strictly below now, filtering their blobs
out of the filesystem; afterwards a lookup of any removed token is
not-found and the removed file path no longer exists. -/
theorem claim_C1 (now : Nat) (reg : Registry) (fs : FS)
    (hkeys : (dictKeys reg).Nodup) :
    ∃ evs,
      cleanupCycle now [] reg fs =
        .ok (reg.filter (fun p => !(isExpired now p)),
             fs.filter (fun q => decide (¬ q.1 ∈ expiredPaths now reg)),
             evs) ∧
      ∀ t info, (t, info) ∈ reg → now > info.expiresAt →
        dictGet (reg.filter (fun p => !(isExpired now p))) t = none ∧
        dictContains
            (fs.filter (fun q => decide (¬ q.1 ∈ expiredPaths now reg)))
            info.filePath = false := by
  obtain ⟨ds, heq, _, _⟩ := cleanupCycle_noFail now reg fs hkeys
  refine ⟨_, heq, ?_⟩
  intro t info hmem hexp
  exact ⟨dictGet_live_filter_eq_none now reg hkeys hmem hexp,
    dictContains_reaped_filter_false now reg fs hmem hexp⟩

/-- Witness for C1: a registry with two expired entries and a live one;
the cycle keeps exactly the live entry and the live blob. -/
theorem claim_C1_witness :
    (∃ evs,
      cleanupCycle 10 [] sampleReg sampleFs =
        .ok (sampleReg.filter (fun p => !(isExpired 10 p)),
             sampleFs.filter
               (fun q => decide (¬ q.1 ∈ expiredPaths 10 sampleReg)),
             evs) ∧
      ∀ t info, (t, info) ∈ sampleReg → 10 > info.expiresAt →
        dictGet (sampleReg.filter (fun p => !(isExpired 10 p))) t = none ∧
        dictContains
            (sampleFs.filter
              (fun q => decide (¬ q.1 ∈ expiredPaths 10 sampleReg)))
            info.filePath = false) ∧
    sampleReg.filter (fun p => !(isExpired 10 p)) = [("t3", liveInfo)] ∧
    sampleFs.filter (fun q => decide (¬ q.1 ∈ expiredPaths 10 sampleReg)) =
      [("image_storage/c1.png", [2, 3])] :=
  ⟨claim_C1 10 sampleReg sampleFs (by decide), by decide, by decide⟩

/-- C2: in one cycle every physical deletion event precedes every
registry removal event (the trace is deletions ds, then removals); each
expired record with a present blob gets a deletion event and a removal
event; and an expired record whose blob is already absent is still
removed from the registry with the cycle completing without error. -/
theorem claim_C2 (now : Nat) (reg : Registry) (fs : FS)
    (hkeys : (dictKeys reg).Nodup)
    (hpaths : (reg.map (fun p => p.2.filePath)).Nodup) :
    ∃ reg2 fs2 ds,
      cleanupCycle now [] reg fs =
        .ok (reg2, fs2,
          ds ++ (expiredTokens now reg).map CleanupEvent.removeEntry) ∧
      (∀ e ∈ ds, ∃ p, e = CleanupEvent.deleteFile p) ∧
      ∀ t info, (t, info) ∈ reg → now > info.expiresAt →
        (dictContains fs info.filePath = true →
          CleanupEvent.deleteFile info.filePath ∈ ds) ∧
        CleanupEvent.removeEntry t ∈
          (expiredTokens now reg).map CleanupEvent.removeEntry ∧
        dictGet reg2 t = none := by
  obtain ⟨ds, heq, hds, hscan⟩ := cleanupCycle_noFail now reg fs hkeys
  refine ⟨_, _, ds, heq, hds, ?_⟩
  intro t info hmem hexp
  refine ⟨?_, ?_, dictGet_live_filter_eq_none now reg hkeys hmem hexp⟩
  · intro hex
    have hmemdel := scan_deleteFile_mem now reg fs [] [] t info
      _ hpaths hmem hexp hex hscan
    simpa using hmemdel
  · apply List.mem_map_of_mem CleanupEvent.removeEntry
    rw [expiredTokens]
    have hexpmem : (t, info) ∈ reg.filter (isExpired now) := by
      apply List.mem_filter.mpr
      refine ⟨hmem, ?_⟩
      simp [isExpired, hexp]
    exact List.mem_map_of_mem (fun p => p.1) hexpmem

/-- Witness for C2: t1 is expired with its blob present, t2 is expired
with its blob already missing; the cycle succeeds, deletes the t1 blob
before any registry removal, and removes both tokens. -/
theorem claim_C2_witness :
    ∃ reg2 fs2 ds,
      cleanupCycle 10 [] sampleReg sampleFs =
        .ok (reg2, fs2,
          ds ++ (expiredTokens 10 sampleReg).map CleanupEvent.removeEntry) ∧
      (∀ e ∈ ds, ∃ p, e = CleanupEvent.deleteFile p) ∧
      ∀ t info, (t, info) ∈ sampleReg → 10 > info.expiresAt →
        (dictContains sampleFs info.filePath = true →
          CleanupEvent.deleteFile info.filePath ∈ ds) ∧
        CleanupEvent.removeEntry t ∈
          (expiredTokens 10 sampleReg).map CleanupEvent.removeEntry ∧
        dictGet reg2 t = none :=
  claim_C2 10 sampleReg sampleFs (by decide) (by decide)

/-- C9: an entry whose expiresAt is not strictly below now survives one
cycle unchanged (same token, all fields identical), stays retrievable,
and its blob entries are untouched, provided its path is not also the
path of some expired entry. -/
theorem claim_C9 (now : Nat) (reg : Registry) (fs : FS)
    (hkeys : (dictKeys reg).Nodup) (t : String) (info : FileInfo)
    (hmem : (t, info) ∈ reg) (hlive : ¬ now > info.expiresAt)
    (hpath : ¬ info.filePath ∈ expiredPaths now reg) :
    ∃ reg2 fs2 evs,
      cleanupCycle now [] reg fs = .ok (reg2, fs2, evs) ∧
      (t, info) ∈ reg2 ∧ dictGet reg2 t = some info ∧
      ∀ content, (info.filePath, content) ∈ fs →
        (info.filePath, content) ∈ fs2 := by
  obtain ⟨ds, heq, _, _⟩ := cleanupCycle_noFail now reg fs hkeys
  have hmem2 : (t, info) ∈ reg.filter (fun p => !(isExpired now p)) := by
    apply List.mem_filter.mpr
    refine ⟨hmem, ?_⟩
    simp [isExpired, hlive]
  refine ⟨_, _, _, heq, hmem2, ?_, ?_⟩
  · have hsub : List.Sublist
        (dictKeys (reg.filter (fun p => !(isExpired now p))))
        (dictKeys reg) :=
      (List.filter_sublist reg).map Prod.fst
    exact dictGet_of_mem (hkeys.sublist hsub) hmem2
  · intro content hc
    apply List.mem_filter.mpr
    refine ⟨hc, ?_⟩
    simpa using hpath

/-- Witness for C9: the live entry t3 survives the cycle with its record
and blob intact. -/
theorem claim_C9_witness :
    ∃ reg2 fs2 evs,
      cleanupCycle 10 [] sampleReg sampleFs = .ok (reg2, fs2, evs) ∧
      ("t3", liveInfo) ∈ reg2 ∧ dictGet reg2 "t3" = some liveInfo ∧
      ∀ content, ("image_storage/c1.png", content) ∈ sampleFs →
        ("image_storage/c1.png", content) ∈ fs2 :=
  claim_C9 10 sampleReg sampleFs (by decide) "t3" liveInfo (by decide)
    (by decide) (by decide)

/-- C3: evaluation of the code at the failing input.  Two expired
records; deleting the first blob raises an OSError.  The exception
propagates out of the scan loop and out of the whole coroutine: the
cycle ends in the error, the second blob is never deleted and no
registry entry is removed, and the `while True` task is dead, so no
future cycle runs either.  The claim (and spec sections 4.4 and 7)
requires the failure to be isolated to that record while the cycle
continues to the next candidate. -/
theorem claim_C3_code :
    cleanupCycle 10 ["audio_storage/a1.mp3"] sampleReg sampleFs =
      .error "audio_storage/a1.mp3" := by
  rfl

theorem upload_audio_accepted (req : Request) (filename : String)
    (content : List Nat) (uuidName uuidToken : String)
    (tExpiry tCreated : Nat) (reg : Registry) (fs : FS)
    (h : is_audio_file filename = true) :
    upload_audio req filename content uuidName uuidToken tExpiry tCreated
        reg fs =
      (dictSet reg uuidToken
        { originalFilename := filename,
          filePath :=
            STORAGE_DIR ++ "/" ++ (uuidName ++ get_file_extension filename),
          uniqueFilename := some (uuidName ++ get_file_extension filename),
          createdAt := tCreated,
          expiresAt := tExpiry + EXPIRY_HOURS * 3600,
          fileSize := none },
       dictSet fs
         (STORAGE_DIR ++ "/" ++ (uuidName ++ get_file_extension filename))
         content,
       .ok [("success", .b true),
            ("message", .s "Audio file uploaded successfully"),
            ("secure_link", .s (get_base_url req ++ "/static/audio/" ++
              (uuidName ++ get_file_extension filename))),
            ("base_url_detected", .s (get_base_url req)),
            ("expires_at", .n (tExpiry + EXPIRY_HOURS * 3600)),
            ("file_size", .n content.length),
            ("expires_in_hours", .n EXPIRY_HOURS)]) := by
  unfold upload_audio
  rw [h]
  rfl

theorem upload_image_accepted (req : Request) (filename : String)
    (content : List Nat) (uuidName uuidToken : String)
    (tExpiry tCreated : Nat) (reg : Registry) (fs : FS)
    (h : is_image_file filename = true) :
    upload_image req filename content uuidName uuidToken tExpiry tCreated
        reg fs =
      (dictSet reg uuidToken
        { originalFilename := filename,
          filePath := IMAGE_STORAGE_DIR ++ "/" ++
            (uuidName ++ get_file_extension filename),
          uniqueFilename := none,
          createdAt := tCreated,
          expiresAt := tExpiry + IMAGE_EXPIRY_MINUTES * 60,
          fileSize := some content.length },
       dictSet fs
         (IMAGE_STORAGE_DIR ++ "/" ++ (uuidName ++ get_file_extension filename))
         content,
       .ok [("success", .b true),
            ("message", .s "Image file uploaded successfully"),
            ("secure_link", .s (get_base_url req ++ "/images/" ++
              (uuidName ++ get_file_extension filename))),
            ("base_url_detected", .s (get_base_url req)),
            ("expires_at", .n (tExpiry + IMAGE_EXPIRY_MINUTES * 60)),
            ("expires_in_minutes", .n IMAGE_EXPIRY_MINUTES)]) := by
  unfold upload_image
  rw [h]
  rfl

/-- C4 counterexample: an audio upload where the clock advances by one
second between the expires_at computation and the created_at sample
(the source calls datetime.now() twice).  The stored record has
expiresAt 43200 but createdAt 1, so expiresAt differs from
createdAt + 12 hours. -/
theorem claim_C4_cex :
    dictGet
        (upload_audio sampleReq "a.mp3" [1, 2, 3] "u" "tok" 0 1 [] []).1
        "tok" =
      some { originalFilename := "a.mp3",
             filePath := "audio_storage/u.mp3",
             uniqueFilename := some "u.mp3", createdAt := 1,
             expiresAt := 43200, fileSize := none } ∧
    (43200 : Nat) ≠ 1 + EXPIRY_HOURS * 3600 :=
  ⟨by decide, by decide⟩

/-- C4 (amended): after a successful upload, the stored record has
expiresAt equal to the first clock sample plus the category retention
(12 hours audio, 20 minutes image) and createdAt equal to the second,
no-earlier sample, so expiresAt is at most createdAt plus the retention,
with equality exactly when the clock did not advance between the two
samples; the blob stored at the record's filePath is byte-identical to
the uploaded content. -/
theorem claim_C4 (req1 req2 : Request) (fnA fnI : String)
    (cA cI : List Nat) (uA tokA uI tokI : String) (eA cAt eI cIt : Nat)
    (regA regI : Registry) (fsA fsI : FS)
    (hA : is_audio_file fnA = true) (htA : eA ≤ cAt)
    (hI : is_image_file fnI = true) (htI : eI ≤ cIt) :
    (∃ info,
      dictGet (upload_audio req1 fnA cA uA tokA eA cAt regA fsA).1 tokA =
        some info ∧
      info.expiresAt = eA + EXPIRY_HOURS * 3600 ∧
      info.createdAt = cAt ∧
      info.expiresAt ≤ info.createdAt + EXPIRY_HOURS * 3600 ∧
      (eA = cAt → info.expiresAt = info.createdAt + EXPIRY_HOURS * 3600) ∧
      dictGet (upload_audio req1 fnA cA uA tokA eA cAt regA fsA).2.1
        info.filePath = some cA) ∧
    (∃ info,
      dictGet (upload_image req2 fnI cI uI tokI eI cIt regI fsI).1 tokI =
        some info ∧
      info.expiresAt = eI + IMAGE_EXPIRY_MINUTES * 60 ∧
      info.createdAt = cIt ∧
      info.expiresAt ≤ info.createdAt + IMAGE_EXPIRY_MINUTES * 60 ∧
      (eI = cIt →
        info.expiresAt = info.createdAt + IMAGE_EXPIRY_MINUTES * 60) ∧
      dictGet (upload_image req2 fnI cI uI tokI eI cIt regI fsI).2.1
        info.filePath = some cI) := by
  constructor
  · rw [upload_audio_accepted _ _ _ _ _ _ _ _ _ hA]
    refine ⟨_, dictGet_set_self _ _ _, rfl, rfl, by dsimp only; omega,
      fun hh => by simp [hh], dictGet_set_self _ _ _⟩
  · rw [upload_image_accepted _ _ _ _ _ _ _ _ _ hI]
    refine ⟨_, dictGet_set_self _ _ _, rfl, rfl, by dsimp only; omega,
      fun hh => by simp [hh], dictGet_set_self _ _ _⟩

/-- Witness for C4 (amended) at concrete uploads with a constant clock. -/
theorem claim_C4_witness :
    (∃ info,
      dictGet (upload_audio sampleReq "a.mp3" [1, 2, 3] "u" "tok" 0 0
          [] []).1 "tok" = some info ∧
      info.expiresAt = 0 + EXPIRY_HOURS * 3600 ∧
      info.createdAt = 0 ∧
      info.expiresAt ≤ info.createdAt + EXPIRY_HOURS * 3600 ∧
      ((0 : Nat) = 0 →
        info.expiresAt = info.createdAt + EXPIRY_HOURS * 3600) ∧
      dictGet (upload_audio sampleReq "a.mp3" [1, 2, 3] "u" "tok" 0 0
          [] []).2.1 info.filePath = some [1, 2, 3]) ∧
    (∃ info,
      dictGet (upload_image sampleReq "p.png" [7] "v" "tok2" 3 4
          [] []).1 "tok2" = some info ∧
      info.expiresAt = 3 + IMAGE_EXPIRY_MINUTES * 60 ∧
      info.createdAt = 4 ∧
      info.expiresAt ≤ info.createdAt + IMAGE_EXPIRY_MINUTES * 60 ∧
      ((3 : Nat) = 4 →
        info.expiresAt = info.createdAt + IMAGE_EXPIRY_MINUTES * 60) ∧
      dictGet (upload_image sampleReq "p.png" [7] "v" "tok2" 3 4
          [] []).2.1 info.filePath = some [7]) :=
  claim_C4 sampleReq sampleReq "a.mp3" "p.png" [1, 2, 3] [7] "u" "tok"
    "v" "tok2" 0 0 3 4 [] [] [] [] (by decide) (by decide) (by decide)
    (by decide)

/-- C5 counterexample: uploading with a token that already keys the
registry neither fails nor leaves the old record in place: the handler
succeeds (a 200 payload) and the dict assignment replaces the record. -/
theorem claim_C5_cex :
    (upload_audio sampleReq "a.mp3" [9] "u" "tok" 5 5
        [("tok", oldInfo)] []).1 =
      [("tok", { originalFilename := "a.mp3",
                 filePath := "audio_storage/u.mp3",
                 uniqueFilename := some "u.mp3", createdAt := 5,
                 expiresAt := 43205, fileSize := none })] ∧
    isOkOutcome
        (upload_audio sampleReq "a.mp3" [9] "u" "tok" 5 5
          [("tok", oldInfo)] []).2.2 = true ∧
    ({ originalFilename := "a.mp3", filePath := "audio_storage/u.mp3",
       uniqueFilename := some "u.mp3", createdAt := 5, expiresAt := 43205,
       fileSize := none } : FileInfo) ≠ oldInfo :=
  ⟨by decide, by decide, by decide⟩

/-- C5 (amended): inserting a record under a token that already exists
in the registry succeeds and overwrites the existing record in place
(Python dict assignment, last writer wins): afterwards the token maps
to the new record and the key set is unchanged. -/
theorem claim_C5 (reg : Registry) (token : String) (info : FileInfo)
    (h : token ∈ dictKeys reg) :
    dictGet (dictSet reg token info) token = some info ∧
    dictKeys (dictSet reg token info) = dictKeys reg :=
  ⟨dictGet_set_self reg token info,
   dictKeys_set_of_contains reg token info
     ((dictContains_true_iff reg token).mpr h)⟩

/-- Witness for C5 (amended) at a concrete one-entry registry. -/
theorem claim_C5_witness :
    dictGet (dictSet [("tok", oldInfo)] "tok" liveInfo) "tok" =
      some liveInfo ∧
    dictKeys (dictSet [("tok", oldInfo)] "tok" liveInfo) =
      dictKeys [("tok", oldInfo)] :=
  claim_C5 [("tok", oldInfo)] "tok" liveInfo (by decide)

/-- C6 counterexample: the image success payload has no file_size key,
so it does not carry every audio-payload field with only
expires_in_minutes substituted for expires_in_hours. -/
theorem claim_C6_cex :
    outcomeKeys
        (upload_image sampleReq "p.png" [0, 0] "u" "tok" 0 0 [] []).2.2 =
      ["success", "message", "secure_link", "base_url_detected",
       "expires_at", "expires_in_minutes"] ∧
    ¬ "file_size" ∈ outcomeKeys
        (upload_image sampleReq "p.png" [0, 0] "u" "tok" 0 0 [] []).2.2 :=
  ⟨by decide, by decide⟩

/-- C6 (amended): the audio success payload has exactly the keys
success, message, secure_link, base_url_detected, expires_at, file_size,
expires_in_hours, in that order; the image success payload has the same
keys except that it omits file_size and carries expires_in_minutes in
place of expires_in_hours. -/
theorem claim_C6 (req1 req2 : Request) (fnA fnI : String)
    (cA cI : List Nat) (uA tokA uI tokI : String) (eA cAt eI cIt : Nat)
    (regA regI : Registry) (fsA fsI : FS)
    (hA : is_audio_file fnA = true) (hI : is_image_file fnI = true) :
    outcomeKeys (upload_audio req1 fnA cA uA tokA eA cAt regA fsA).2.2 =
      ["success", "message", "secure_link", "base_url_detected",
       "expires_at", "file_size", "expires_in_hours"] ∧
    outcomeKeys (upload_image req2 fnI cI uI tokI eI cIt regI fsI).2.2 =
      ["success", "message", "secure_link", "base_url_detected",
       "expires_at", "expires_in_minutes"] := by
  constructor
  · rw [upload_audio_accepted _ _ _ _ _ _ _ _ _ hA]
    rfl
  · rw [upload_image_accepted _ _ _ _ _ _ _ _ _ hI]
    rfl

/-- Witness for C6 (amended) at concrete uploads. -/
theorem claim_C6_witness :
    outcomeKeys
        (upload_audio sampleReq "a.mp3" [1] "u" "tok" 0 0 [] []).2.2 =
      ["success", "message", "secure_link", "base_url_detected",
       "expires_at", "file_size", "expires_in_hours"] ∧
    outcomeKeys
        (upload_image sampleReq "p.png" [1] "u" "tok" 0 0 [] []).2.2 =
      ["success", "message", "secure_link", "base_url_detected",
       "expires_at", "expires_in_minutes"] :=
  claim_C6 sampleReq sampleReq "a.mp3" "p.png" [1] [1] "u" "tok" "u"
    "tok" 0 0 0 0 [] [] [] [] (by decide) (by decide)

theorem splitOnChar_not_mem {c : Char} :
    ∀ {l : List Char}, c ∉ l → splitOnChar c l = [l] := by
  intro l
  induction l with
  | nil => intro _; rfl
  | cons x xs ih =>
    intro h
    have hx : ¬ x = c := fun he => h (he ▸ List.mem_cons_self x xs)
    have hxs : c ∉ xs := fun hm => h (List.mem_cons_of_mem x hm)
    rw [splitOnChar, ih hxs]
    simp [hx]

theorem suffixAux_no_dot_append :
    ∀ (l : List Char), '.' ∉ l → ∀ (acc r : List Char),
      suffixAux (l ++ r) acc = suffixAux r (l.reverse ++ acc) := by
  intro l
  induction l with
  | nil =>
    intro _ acc r
    simp
  | cons x xs ih =>
    intro h acc r
    have hx : ¬ x = '.' := fun he => h (he ▸ List.mem_cons_self x xs)
    have hxs : '.' ∉ xs := fun hm => h (List.mem_cons_of_mem x hm)
    rw [List.cons_append, suffixAux, if_neg hx, ih hxs (x :: acc) r]
    congr 1
    simp

theorem pathSuffixOf_concat (b e : List Char) (hb : b ≠ []) (he : e ≠ [])
    (hed : '.' ∉ e) : pathSuffixOf (b ++ '.' :: e) = '.' :: e := by
  rw [pathSuffixOf, List.reverse_append, List.reverse_cons,
    List.append_assoc,
    suffixAux_no_dot_append e.reverse (by simpa using hed) [] _,
    List.reverse_reverse, List.append_nil, List.singleton_append, suffixAux,
    if_pos rfl, if_neg]
  intro hcontra
  rcases hcontra with h1 | h2
  · exact he h1
  · exact hb (by simpa using h2)

theorem getFileExtensionL_concat (b e : List Char) (hb : b ≠ [])
    (he : e ≠ []) (hbs : '/' ∉ b) (hes : '/' ∉ e) (hed : '.' ∉ e) :
    getFileExtensionL (b ++ '.' :: e) = '.' :: lowerChars e := by
  have hslash : '/' ∉ b ++ '.' :: e := by
    intro hm
    rcases List.mem_append.mp hm with hmb | hmc
    · exact hbs hmb
    · rcases List.mem_cons.mp hmc with h1 | h2
      · cases h1
      · exact hes h2
  have h1 : b ++ '.' :: e ≠ [] := by simp [hb]
  have h2 : b ++ '.' :: e ≠ ['.'] := by
    intro hcontra
    have hlen := congrArg List.length hcontra
    simp at hlen
    have hbp : 0 < b.length := List.length_pos.mpr hb
    have hep : 0 < e.length := List.length_pos.mpr he
    omega
  have hname : pathNameOf (b ++ '.' :: e) = b ++ '.' :: e := by
    rw [pathNameOf, pathComponents, splitOnChar_not_mem hslash]
    simp [List.filter_cons, h1, h2]
  rw [getFileExtensionL, hname, pathSuffixOf_concat b e hb he hed,
    lowerChars, List.map_cons]
  rw [show Char.toLower '.' = '.' from rfl]
  rfl

theorem string_data_append (s t : String) :
    (s ++ t).data = s.data ++ t.data := by
  cases s
  cases t
  rfl

theorem get_file_extension_concat (stem ext : String)
    (hb : stem.data ≠ []) (he : ext.data ≠ [])
    (hbs : '/' ∉ stem.data) (hes : '/' ∉ ext.data)
    (hed : '.' ∉ ext.data) :
    get_file_extension (stem ++ "." ++ ext) =
      String.mk ('.' :: lowerChars ext.data) := by
  rw [get_file_extension]
  have hdata : (stem ++ "." ++ ext).data = stem.data ++ '.' :: ext.data := by
    rw [string_data_append, string_data_append]
    simp
  rw [hdata, getFileExtensionL_concat stem.data ext.data hb he hbs hes hed]

theorem audio_image_disjoint (s : String) (h : s ∈ audio_extensions) :
    s ∉ image_extensions := by
  fin_cases h <;> decide

theorem image_audio_disjoint (s : String) (h : s ∈ image_extensions) :
    s ∉ audio_extensions := by
  fin_cases h <;> decide

/-- C7: for a filename stem.ext (nonempty slash-free stem, nonempty
dot-free slash-free extension), when the lowercased dotted extension is
in an allow-list the classifiers assign exactly that category whatever
the letter case of ext; when it is in neither allow-list both upload
endpoints reject with a 400 error, leaving the registry and filesystem
unchanged. -/
theorem claim_C7 (stem ext : String) (req : Request) (content : List Nat)
    (uuidName uuidToken : String) (tExpiry tCreated : Nat)
    (reg : Registry) (fs : FS)
    (hb : stem.data ≠ []) (he : ext.data ≠ [])
    (hbs : '/' ∉ stem.data) (hes : '/' ∉ ext.data)
    (hed : '.' ∉ ext.data) :
    (String.mk ('.' :: lowerChars ext.data) ∈ audio_extensions →
      is_audio_file (stem ++ "." ++ ext) = true ∧
      is_image_file (stem ++ "." ++ ext) = false) ∧
    (String.mk ('.' :: lowerChars ext.data) ∈ image_extensions →
      is_image_file (stem ++ "." ++ ext) = true ∧
      is_audio_file (stem ++ "." ++ ext) = false) ∧
    (String.mk ('.' :: lowerChars ext.data) ∉ audio_extensions →
      String.mk ('.' :: lowerChars ext.data) ∉ image_extensions →
      upload_audio req (stem ++ "." ++ ext) content uuidName uuidToken
          tExpiry tCreated reg fs =
        (reg, fs, .err 400
          "Only audio files are allowed (mp3, wav, flac, aac, ogg, m4a, wma)") ∧
      upload_image req (stem ++ "." ++ ext) content uuidName uuidToken
          tExpiry tCreated reg fs =
        (reg, fs, .err 400
          "Only image files are allowed (jpg, jpeg, png, gif, bmp, webp, svg, tiff, ico)")) := by
  have hext := get_file_extension_concat stem ext hb he hbs hes hed
  refine ⟨?_, ?_, ?_⟩
  · intro hmem
    constructor
    · rw [is_audio_file, hext]
      exact decide_eq_true hmem
    · rw [is_image_file, hext]
      exact decide_eq_false (audio_image_disjoint _ hmem)
  · intro hmem
    constructor
    · rw [is_image_file, hext]
      exact decide_eq_true hmem
    · rw [is_audio_file, hext]
      exact decide_eq_false (image_audio_disjoint _ hmem)
  · intro hna hni
    constructor
    · apply upload_audio_rejected
      rw [is_audio_file, hext]
      exact decide_eq_false hna
    · apply upload_image_rejected
      rw [is_image_file, hext]
      exact decide_eq_false hni

/-- Witness for C7 at the upper-case audio filename clip.MP3 and at the
unsupported filename doc.pdf. -/
theorem claim_C7_witness :
    ((String.mk ('.' :: lowerChars "MP3".data) ∈ audio_extensions →
      is_audio_file ("clip" ++ "." ++ "MP3") = true ∧
      is_image_file ("clip" ++ "." ++ "MP3") = false) ∧
    (String.mk ('.' :: lowerChars "MP3".data) ∈ image_extensions →
      is_image_file ("clip" ++ "." ++ "MP3") = true ∧
      is_audio_file ("clip" ++ "." ++ "MP3") = false) ∧
    (String.mk ('.' :: lowerChars "MP3".data) ∉ audio_extensions →
      String.mk ('.' :: lowerChars "MP3".data) ∉ image_extensions →
      upload_audio sampleReq ("clip" ++ "." ++ "MP3") [1] "u" "tok" 0 0
          [] [] =
        ([], [], .err 400
          "Only audio files are allowed (mp3, wav, flac, aac, ogg, m4a, wma)") ∧
      upload_image sampleReq ("clip" ++ "." ++ "MP3") [1] "u" "tok" 0 0
          [] [] =
        ([], [], .err 400
          "Only image files are allowed (jpg, jpeg, png, gif, bmp, webp, svg, tiff, ico)"))) ∧
    ((String.mk ('.' :: lowerChars "pdf".data) ∈ audio_extensions →
      is_audio_file ("doc" ++ "." ++ "pdf") = true ∧
      is_image_file ("doc" ++ "." ++ "pdf") = false) ∧
    (String.mk ('.' :: lowerChars "pdf".data) ∈ image_extensions →
      is_image_file ("doc" ++ "." ++ "pdf") = true ∧
      is_audio_file ("doc" ++ "." ++ "pdf") = false) ∧
    (String.mk ('.' :: lowerChars "pdf".data) ∉ audio_extensions →
      String.mk ('.' :: lowerChars "pdf".data) ∉ image_extensions →
      upload_audio sampleReq ("doc" ++ "." ++ "pdf") [1] "u" "tok" 0 0
          [] [] =
        ([], [], .err 400
          "Only audio files are allowed (mp3, wav, flac, aac, ogg, m4a, wma)") ∧
      upload_image sampleReq ("doc" ++ "." ++ "pdf") [1] "u" "tok" 0 0
          [] [] =
        ([], [], .err 400
          "Only image files are allowed (jpg, jpeg, png, gif, bmp, webp, svg, tiff, ico)"))) :=
  ⟨claim_C7 "clip" "MP3" sampleReq [1] "u" "tok" 0 0 [] [] (by decide)
      (by decide) (by decide) (by decide) (by decide),
    claim_C7 "doc" "pdf" sampleReq [1] "u" "tok" 0 0 [] [] (by decide)
      (by decide) (by decide) (by decide) (by decide)⟩
